import Mathlib

/-!
Verification of the hot-reload plugin's change-detection and reload-coordination
engine (src/hot-reload.ts), as a shallow embedding in Lean.

Modelling conventions:
* the single-threaded JS scheduler is modelled by sequential evaluation; promise
  chains become recursive functions that thread state and accumulate an event
  trace;
* machine integers (timestamps) become `Int`/`Nat`;
* `Map`/`Record` objects become association lists with first-match lookup;
* fallible async host calls (`disablePlugin`, `enablePlugin`) become boolean
  failure switches in an environment record, and a rejected promise becomes a
  `failed` flag on the output.
-/

namespace HotReload

/-! ## Stat cache (src/hot-reload.ts line 8: `statCache = new Map()`) -/

/-- A filesystem stat as used by `checkVersion`: only `mtime` is compared. -/
structure Stat where
  mtime : Int
deriving DecidableEq

/-- `statCache`: path → Stat, modelled as an association list with
first-match lookup (JS `Map.get`). -/
abbrev Cache := List (String × Stat)

/-- JS `Map.get` (as an `Option`). -/
def cacheGet (c : Cache) (p : String) : Option Stat :=
  (c.find? (fun e => e.1 = p)).map (fun e => e.2)

/-- JS `Map.set`: overwrite the entry for `p`. -/
def cacheSet (c : Cache) (p : String) (s : Stat) : Cache :=
  (p, s) :: c.filter (fun e => e.1 ≠ p)

/-- `pluginNames` lookup (JS `Record` indexing, as an `Option`). -/
def namesGet (m : List (String × String)) (k : String) : Option String :=
  (m.find? (fun e => e.1 = k)).map (fun e => e.2)

/-- JS `delete obj[k]` on a `Record`. -/
def namesDelete (m : List (String × String)) (k : String) : List (String × String) :=
  m.filter (fun e => e.1 ≠ k)

/-! ## Version checker (src/hot-reload.ts lines 64–79, `checkVersion`) -/

/-- The mutable state touched by `checkVersion`: the stat cache and the
`pluginNames` record (directory basename → plugin id). -/
structure CheckState where
  statCache : Cache
  pluginNames : List (String × String)
deriving DecidableEq

/-- One iteration of the `for (const file of ["main.js", "styles.css"])` body:
stat the path; if the stat succeeds, fire a reload request exactly when the
cache already held the path with a different `mtime`, then overwrite the cache
entry (the JS code calls `requestReload` before `statCache.set`). Returns the
updated cache and whether a reload was requested for this file. -/
def checkFile (statFn : String → Option Stat) (path : String) (c : Cache) :
    Cache × Bool :=
  match statFn path with
  | none => (c, false)
  | some st =>
    match cacheGet c path with
    | some old => (cacheSet c path st, st.mtime != old.mtime)
    | none => (cacheSet c path st, false)

/-- The two files tracked per extension. -/
def trackedFiles : List String := ["main.js", "styles.css"]

/-- `checkVersion(plugin)`: look up the plugin's manifest directory; if present,
run `checkFile` over `main.js` and `styles.css` collecting reload requests;
otherwise (`// Deleted plugin, stop watching`) delete the plugin's key from
`pluginNames`. Returns the new state and the list of `requestReload` calls
made (in order). -/
def checkVersion (manifests : String → Option String)
    (statFn : String → Option Stat) (plugin : String) (s : CheckState) :
    CheckState × List String :=
  match manifests plugin with
  | some dir =>
    let step := fun (acc : Cache × List String) (file : String) =>
      let path := dir ++ "/" ++ file
      let r := checkFile statFn path acc.1
      (r.1, if r.2 then acc.2 ++ [plugin] else acc.2)
    let r := trackedFiles.foldl step (s.statCache, [])
    ({ s with statCache := r.1 }, r.2)
  | none =>
    ({ s with pluginNames := namesDelete s.pluginNames plugin }, [])

/-- The spec's "real change" condition for one path: the fresh stat succeeds,
a cached stat exists, and the modification times differ. Stated against a
given (pre-update) cache. -/
def realChange (statFn : String → Option Stat) (c : Cache) (path : String) :
    Bool :=
  match statFn path, cacheGet c path with
  | some st, some old => st.mtime != old.mtime
  | _, _ => false

/-! ## Serialized task queue (src/hot-reload.ts lines 215–224, `taskQueue`) -/

/-- One action submitted to the queue, abstracted to an identifier and whether
its body throws/rejects. -/
structure QTask where
  id : Nat
  fails : Bool
deriving DecidableEq

/-- Observable events of one queue slot: the action starts, then settles with
success or failure. -/
inductive QEv where
  | start (id : Nat)
  | ok (id : Nat)
  | err (id : Nat)
deriving DecidableEq

/-- The events one action contributes to the global trace. -/
def taskEvents (t : QTask) : List QEv :=
  [QEv.start t.id, if t.fails then QEv.err t.id else QEv.ok t.id]

/-- The settlement of one action's returned promise. -/
def taskResult (t : QTask) : Except Nat Nat :=
  if t.fails then Except.error t.id else Except.ok t.id

/-- `taskQueue()`'s runner applied to a whole submission list: each action is
chained with `last.finally(...)`, so under the single-threaded scheduler it
begins only after the previous action's promise settled, its own promise is
resolved/rejected from its own body alone (`try res(action()) catch rej(e)`),
and a rejection never prevents the next chained action from running. The
model returns the global event trace and each submission's settled result. -/
def taskQueueRun : List QTask → List QEv × List (Except Nat Nat)
  | [] => ([], [])
  | t :: ts =>
    let r := taskQueueRun ts
    (taskEvents t ++ r.1, taskResult t :: r.2)

/-! ## Debounce (obsidian's `debounce`, used at lines 11 and 111) -/

/-- Modelled from the spec: the `debounce` helper is imported from the
`obsidian` package and its code is not part of this repository. Spec §4.2:
leading-edge per-key coalescing — the first call fires immediately and starts
a cooldown; calls during the cooldown are suppressed (each suppressed call
keeps the cooldown pending); once the cooldown elapses with no further calls,
the next call fires again. The state is the earliest time the next call may
fire. -/
structure DebState where
  readyAt : Nat
deriving DecidableEq

/-- Modelled from the spec: one call at time `t`. Fires iff the debouncer is
not in cooldown (`readyAt ≤ t`); either way the cooldown now runs until
`t + cooldown`. -/
def debStep (cooldown : Nat) (s : DebState) (t : Nat) : DebState × Bool :=
  (⟨t + cooldown⟩, s.readyAt ≤ t)

/-- Modelled from the spec: run a sequence of call timestamps through the
debouncer, returning the timestamps whose calls fired and the final state. -/
def debRun (cooldown : Nat) (s : DebState) : List Nat → List Nat × DebState
  | [] => ([], s)
  | t :: ts =>
    let st := debStep cooldown s t
    let r := debRun cooldown st.1 ts
    (if st.2 then t :: r.1 else r.1, r.2)

/-- Cooldown of the whole-registry rescan trigger
(line 11: `debounce(..., 250, true)`). -/
def reindexCooldownMs : Nat := 250

/-- Cooldown of each per-extension reload trigger
(line 111: `debounce(..., 750, true)`). -/
def reloadCooldownMs : Nat := 750

/-! ## Change event router (src/hot-reload.ts lines 96–106, `onFileChange`) -/

/-- JS `String.prototype.split("/")` on the character list: always returns at
least one (possibly empty) segment; a separator at either end yields an empty
segment there. -/
def splitSeg : List Char → List (List Char)
  | [] => [[]]
  | c :: rest =>
    let r := splitSeg rest
    if c = '/' then [] :: r
    else
      match r with
      | [] => [[c]]
      | h :: t => (c :: h) :: t

/-- JS `filename.split("/")` as a list of strings. -/
def splitPath (s : String) : List String :=
  (splitSeg s.data).map String.mk

/-- JS `s.startsWith(pre)`. -/
def strStartsWith (s pre : String) : Bool :=
  pre.data = s.data.take pre.data.length

/-- JS truthiness of `dir && this.pluginNames[dir]`: `none` when `dir` is
absent or empty, when the record has no entry, or when the stored id is the
empty string. -/
def lookupTruthy (pluginNames : List (String × String)) :
    Option String → Option String
  | none => none
  | some d =>
    if d = "" then none
    else
      match namesGet pluginNames d with
      | none => none
      | some v => if v = "" then none else some v

/-- The router's dispatch decision for one raw event. -/
inductive RouteAction where
  | ignore
  | watch (path : String)
  | rescan
  | check (plugin : String)
deriving DecidableEq

/-- `onFileChange(filename)`: ignore events outside the plugin folder; split
the path and pop the file name and directory; a path directly under the root
(`path.length === 1 && dir === "plugins"`) is watched; any other depth than
exactly two segments below the root is ignored; manifest/opt-in/VCS markers or
an unknown directory trigger the debounced rescan; files other than the two
tracked ones are ignored; otherwise the version checker runs for the mapped
plugin id. -/
def onFileChange (pluginFolder : String)
    (pluginNames : List (String × String)) (filename : String) : RouteAction :=
  if strStartsWith filename (pluginFolder ++ "/") = false then RouteAction.ignore
  else
    let segs := splitPath filename
    let base := segs.getLast?
    let rest1 := segs.dropLast
    let dir := rest1.getLast?
    let path := rest1.dropLast
    if path.length = 1 ∧ dir = some "plugins" then RouteAction.watch filename
    else if path.length ≠ 2 then RouteAction.ignore
    else if base = some "manifest.json" ∨ base = some ".hotreload" ∨
        base = some ".git" then RouteAction.rescan
    else
      match lookupTruthy pluginNames dir with
      | none => RouteAction.rescan
      | some id =>
        if base ≠ some "main.js" ∧ base ≠ some "styles.css" then
          RouteAction.ignore
        else RouteAction.check id

/-! ## Registry scanner (src/hot-reload.ts lines 81–94, `getPluginNames`) -/

/-- The host inputs `getPluginNames` reads: the manifest list (id, dir) and
`vault.exists`. -/
structure ScanEnv where
  manifests : List (String × String)
  pathExists : String → Bool

/-- `getPluginNames` (the registry-rebuilding part): for every manifest,
record `dir-basename → id`, and add the id to the opt-in set when the
directory holds a `.git` or `.hotreload` marker. Returns the fresh
`pluginNames` record and the fresh `enabledPlugins` set (as a list). -/
def getPluginNames (env : ScanEnv) : List (String × String) × List String :=
  (env.manifests.map (fun e => ((splitPath e.2).getLastD "", e.1)),
   (env.manifests.filter
     (fun e => env.pathExists (e.2 ++ "/.git") ||
               env.pathExists (e.2 ++ "/.hotreload"))).map (fun e => e.1))

/-! ## Reload request (src/hot-reload.ts lines 108–114, `requestReload`) -/

/-- The state `requestReload` touches: the opt-in set `this.enabledPlugins`,
the `pluginReloaders` record, and a fresh-tag supply standing for allocation
of a new debounced closure (distinct tags ⇔ distinct closure objects). -/
structure ReqState where
  enabledPlugins : List String
  pluginReloaders : List (String × Nat)
  nextTag : Nat
deriving DecidableEq

/-- `pluginReloaders` lookup. -/
def reloadersGet (m : List (String × Nat)) (k : String) : Option Nat :=
  (m.find? (fun e => e.1 = k)).map (fun e => e.2)

/-- Result of one `requestReload` call: the new state and the tag of the
debounced reloader that was invoked (`none` when the call returned early). -/
structure ReqOut where
  state : ReqState
  invoked : Option Nat
deriving DecidableEq

/-- `requestReload(plugin)`: return early unless the plugin is in the opt-in
set; otherwise fetch the stored reloader, creating and storing a fresh one
(`this.pluginReloaders[plugin] = debounce(...)`) if none exists yet, and
invoke it. -/
def requestReload (plugin : String) (s : ReqState) : ReqOut :=
  if s.enabledPlugins.contains plugin = false then ⟨s, none⟩
  else
    match reloadersGet s.pluginReloaders plugin with
    | some tag => ⟨s, some tag⟩
    | none =>
      ⟨{ s with
          pluginReloaders := (plugin, s.nextTag) :: s.pluginReloaders,
          nextTag := s.nextTag + 1 },
       some s.nextTag⟩

/-! ## Reload orchestrator (src/hot-reload.ts lines 116–160, `reload` and
`showNotice`) -/

/-- The host environment one `reload(plugin)` call observes. Fallible host
calls are switches; panel state is sampled where the code reads it. -/
structure ReloadEnv where
  hostEnabled : List String
  activeTabId : Option String
  activeTabScrollTop : Int
  activeTabScrollLeft : Int
  disableFails : Bool
  enableFails : Bool
  settingShown : Bool
  activeTabAfterEnable : Option String
  openTabSucceeds : Bool
  shouldReopenActiveSettingsTab : Bool
  shouldShowReloadNotice : Bool
  initialDebug : Option String
deriving DecidableEq

/-- Observable events of one reload. `setDebugFlag v` covers both
`localStorage.setItem` (`some v`) and `removeItem` (`none`). -/
inductive REv where
  | disableCall (p : String)
  | debugLog (msg : String)
  | setDebugFlag (v : Option String)
  | enableCall (p : String)
  | openTab (p : String)
  | scrollRestore (l t : Int)
  | notice (msg : String)
  | errorLog
deriving DecidableEq

/-- Outcome of one `reload(plugin)` call: the event trace, the final value of
the `debug-plugin` flag, the host's enabled set afterwards, how many times the
`finally` restore ran, and whether the returned promise rejected. -/
structure ReloadOut where
  events : List REv
  debugFlag : Option String
  hostEnabled : List String
  restoreCount : Nat
  failed : Bool
deriving DecidableEq

/-- The notice text of `reload` (line 152). -/
def reloadMsg (plugin : String) : String :=
  "Plugin \"" ++ plugin ++ "\" has been reloaded"

/-- `reload(plugin)`: no-op unless the plugin is enabled in the host; capture
the settings-panel session; disable (may reject); remember and set the
`debug-plugin` flag; enable inside `try` (may reject); on success optionally
reopen the settings tab and restore its scroll; in `finally` restore the flag
to its remembered value exactly once; emit the notice via `showNotice` only
when everything succeeded (`showNotice` always logs at debug level and shows
the `Notice` only when the preference allows). -/
def reload (env : ReloadEnv) (plugin : String) : ReloadOut :=
  if env.hostEnabled.contains plugin = false then
    { events := [], debugFlag := env.initialDebug,
      hostEnabled := env.hostEnabled, restoreCount := 0, failed := false }
  else
    let isSettingTabActive := env.activeTabId = some plugin
    if env.disableFails then
      { events := [REv.disableCall plugin], debugFlag := env.initialDebug,
        hostEnabled := env.hostEnabled, restoreCount := 0, failed := true }
    else
      let afterDisable := env.hostEnabled.erase plugin
      let evPre := [REv.disableCall plugin,
        REv.debugLog ("disabled " ++ plugin), REv.setDebugFlag (some "1")]
      if env.enableFails then
        { events := evPre ++ [REv.enableCall plugin,
            REv.setDebugFlag env.initialDebug],
          debugFlag := env.initialDebug, hostEnabled := afterDisable,
          restoreCount := 1, failed := true }
      else
        let panelEvs :=
          if isSettingTabActive ∧ env.settingShown = true ∧
              env.activeTabAfterEnable = none ∧
              env.shouldReopenActiveSettingsTab = true then
            if env.openTabSucceeds then
              [REv.openTab plugin,
               REv.scrollRestore env.activeTabScrollLeft env.activeTabScrollTop]
            else [REv.openTab plugin]
          else []
        { events := evPre ++ [REv.enableCall plugin] ++ panelEvs ++
            [REv.setDebugFlag env.initialDebug,
             REv.debugLog (reloadMsg plugin)] ++
            (if env.shouldShowReloadNotice then [REv.notice (reloadMsg plugin)]
             else []),
          debugFlag := env.initialDebug, hostEnabled := plugin :: afterDisable,
          restoreCount := 1, failed := false }

/-- The action `requestReload` submits to the queue:
`() => this.reload(plugin).catch(console.error)` — a rejection is caught and
logged, so the queue slot itself always resolves. -/
def queuedReload (env : ReloadEnv) (plugin : String) : ReloadOut :=
  let r := reload env plugin
  if r.failed then
    { r with events := r.events ++ [REv.errorLog], failed := false }
  else r

/-! ## Concrete fixtures used by witnesses -/

/-- A concrete reload environment: plugin "p" enabled, its settings tab open,
enable step failing. -/
def sampleEnvEnableFail : ReloadEnv :=
  { hostEnabled := ["p", "q"], activeTabId := some "p",
    activeTabScrollTop := 3, activeTabScrollLeft := 4, disableFails := false,
    enableFails := true, settingShown := true, activeTabAfterEnable := none,
    openTabSucceeds := true, shouldReopenActiveSettingsTab := true,
    shouldShowReloadNotice := true, initialDebug := none }

/-- A concrete reload environment where everything succeeds. -/
def sampleEnvOk : ReloadEnv :=
  { sampleEnvEnableFail with
    enableFails := false
    initialDebug := some "verbose" }

/-- A concrete request-queue state with one stored reloader. -/
def sampleReqState : ReqState :=
  { enabledPlugins := ["p", "q"], pluginReloaders := [("q", 0)], nextTag := 1 }

/-- A concrete scan environment: one manifest without any opt-in marker. -/
def sampleScanEnv : ScanEnv :=
  { manifests := [("p", "plugins/p-dir")], pathExists := fun _ => false }

end HotReload

namespace HotReload

/-! ## Theorems -/

/-- Membership in a conditional list with empty alternative. -/
theorem mem_ite_nil_iff {α : Type} (c : Prop) [Decidable c] (a : α)
    (l : List α) : (a ∈ if c then l else []) ↔ c ∧ a ∈ l := by
  split <;> simp_all

/-- Claim C8: for every extension id not in the host's enabled-plugin set,
`reload` is a no-op — no events (no disable, enable, flag write or notice),
the debug flag and the host's enabled set are unchanged, and the promise
resolves. -/
theorem reload_noop_when_disabled (env : ReloadEnv) (plugin : String)
    (h : env.hostEnabled.contains plugin = false) :
    reload env plugin =
      { events := [], debugFlag := env.initialDebug,
        hostEnabled := env.hostEnabled, restoreCount := 0, failed := false } := by
  unfold reload
  rw [if_pos h]

/-- Witness for `reload_noop_when_disabled` at a concrete disabled plugin. -/
theorem reload_noop_when_disabled_witness :
    sampleEnvOk.hostEnabled.contains "absent" = false ∧
    reload sampleEnvOk "absent" =
      { events := [], debugFlag := sampleEnvOk.initialDebug,
        hostEnabled := sampleEnvOk.hostEnabled, restoreCount := 0,
        failed := false } :=
  ⟨by decide, reload_noop_when_disabled sampleEnvOk "absent" (by decide)⟩

/-- Claim C4: whatever the outcome of the disable/enable/panel steps, `reload`
leaves the `debug-plugin` flag at its pre-reload value; the `finally` restore
runs at most once, and exactly once whenever the flag was set; and the queued
action (`reload(...).catch(console.error)`) never rejects — a failure is
logged and the queue proceeds. -/
theorem reload_restores_debug_flag (env : ReloadEnv) (plugin : String) :
    (reload env plugin).debugFlag = env.initialDebug
    ∧ (reload env plugin).restoreCount ≤ 1
    ∧ (REv.setDebugFlag (some "1") ∈ (reload env plugin).events →
        (reload env plugin).restoreCount = 1)
    ∧ (queuedReload env plugin).failed = false
    ∧ ((reload env plugin).failed = true →
        REv.errorLog ∈ (queuedReload env plugin).events) := by
  cases hc : env.hostEnabled.contains plugin <;>
    cases hd : env.disableFails <;>
      cases he : env.enableFails <;>
        simp_all [reload, queuedReload]

/-- Witness for `reload_restores_debug_flag` at an environment whose enable
step fails. -/
theorem reload_restores_debug_flag_witness :
    (reload sampleEnvEnableFail "p").debugFlag = sampleEnvEnableFail.initialDebug
    ∧ (reload sampleEnvEnableFail "p").restoreCount ≤ 1
    ∧ (REv.setDebugFlag (some "1") ∈ (reload sampleEnvEnableFail "p").events →
        (reload sampleEnvEnableFail "p").restoreCount = 1)
    ∧ (queuedReload sampleEnvEnableFail "p").failed = false
    ∧ ((reload sampleEnvEnableFail "p").failed = true →
        REv.errorLog ∈ (queuedReload sampleEnvEnableFail "p").events) :=
  reload_restores_debug_flag sampleEnvEnableFail "p"

/-- Claim C7: a user-visible notice appears only when the reload cycle
succeeded and the preference allows it; on a completed successful cycle the
debug-level log line always appears and the notice appears exactly when the
preference allows; a failed reload emits no notice of any message. -/
theorem reload_notice_policy (env : ReloadEnv) (plugin : String) :
    (REv.notice (reloadMsg plugin) ∈ (reload env plugin).events →
      (reload env plugin).failed = false ∧ env.shouldShowReloadNotice = true)
    ∧ (env.hostEnabled.contains plugin = true →
        (reload env plugin).failed = false →
        REv.debugLog (reloadMsg plugin) ∈ (reload env plugin).events
        ∧ (REv.notice (reloadMsg plugin) ∈ (reload env plugin).events ↔
            env.shouldShowReloadNotice = true))
    ∧ ((reload env plugin).failed = true →
        ∀ m, REv.notice m ∉ (reload env plugin).events) := by
  cases hc : env.hostEnabled.contains plugin <;>
    cases hd : env.disableFails <;>
      cases he : env.enableFails <;>
        cases ho : env.openTabSucceeds <;>
          cases hn : env.shouldShowReloadNotice <;>
            simp_all [reload, mem_ite_nil_iff]

/-- Witness for `reload_notice_policy` at a fully successful reload. -/
theorem reload_notice_policy_witness :
    (REv.notice (reloadMsg "p") ∈ (reload sampleEnvOk "p").events →
      (reload sampleEnvOk "p").failed = false ∧
      sampleEnvOk.shouldShowReloadNotice = true)
    ∧ (sampleEnvOk.hostEnabled.contains "p" = true →
        (reload sampleEnvOk "p").failed = false →
        REv.debugLog (reloadMsg "p") ∈ (reload sampleEnvOk "p").events
        ∧ (REv.notice (reloadMsg "p") ∈ (reload sampleEnvOk "p").events ↔
            sampleEnvOk.shouldShowReloadNotice = true))
    ∧ ((reload sampleEnvOk "p").failed = true →
        ∀ m, REv.notice m ∉ (reload sampleEnvOk "p").events) :=
  reload_notice_policy sampleEnvOk "p"

/-- Claim C9: at most one debounced reloader exists per opted-in extension id:
the first request creates it and stores it, any request finding a stored
reloader invokes exactly that one and changes nothing, a second request right
after any request reuses the reloader the first one left in place, and
distinctness of stored keys is preserved. -/
theorem requestReload_single_reloader (s : ReqState) (plugin : String)
    (h : s.enabledPlugins.contains plugin = true) :
    (reloadersGet s.pluginReloaders plugin = none →
      (requestReload plugin s).state.pluginReloaders =
        (plugin, s.nextTag) :: s.pluginReloaders
      ∧ (requestReload plugin s).invoked = some s.nextTag)
    ∧ (∀ tag, reloadersGet s.pluginReloaders plugin = some tag →
        requestReload plugin s = ⟨s, some tag⟩)
    ∧ (∃ tag,
        reloadersGet (requestReload plugin s).state.pluginReloaders plugin =
          some tag
        ∧ requestReload plugin (requestReload plugin s).state =
            ⟨(requestReload plugin s).state, some tag⟩)
    ∧ ((s.pluginReloaders.map (fun e => e.1)).Nodup →
        ((requestReload plugin s).state.pluginReloaders.map
          (fun e => e.1)).Nodup) := by
  have hmem : plugin ∈ s.enabledPlugins := List.elem_iff.mp h
  rcases hr : reloadersGet s.pluginReloaders plugin with _ | tag
  · have hfind : s.pluginReloaders.find? (fun e => e.1 = plugin) = none :=
      Option.map_eq_none'.mp hr
    have hnotin : plugin ∉ s.pluginReloaders.map (fun e => e.1) := by
      intro hin
      rcases List.mem_map.mp hin with ⟨e, he, hkey⟩
      have := List.find?_eq_none.mp hfind e he
      simp [hkey] at this
    have h1 : requestReload plugin s =
        ⟨⟨s.enabledPlugins, (plugin, s.nextTag) :: s.pluginReloaders,
          s.nextTag + 1⟩, some s.nextTag⟩ := by
      simp [requestReload, hmem, hr]
    refine ⟨fun _ => ⟨by rw [h1], by rw [h1]⟩,
      fun tag htag => by simp [hr] at htag, ⟨s.nextTag, ?_, ?_⟩,
      fun hnd => ?_⟩
    · rw [h1]
      simp [reloadersGet]
    · rw [h1]
      simp [requestReload, hmem, reloadersGet]
    · rw [h1]
      simpa [List.nodup_cons, hnotin] using hnd
  · have h1 : requestReload plugin s = ⟨s, some tag⟩ := by
      simp [requestReload, hmem, hr]
    refine ⟨fun hnone => by simp [hr] at hnone, fun t ht => ?_,
      ⟨tag, ?_, ?_⟩, fun hnd => ?_⟩
    · injection ht with h2
      rw [← h2]
      exact h1
    · rw [h1]
      exact hr
    · rw [h1, h1]
    · rw [h1]
      exact hnd

/-- Witness for `requestReload_single_reloader`: plugin "p" is opted in and
has no stored reloader yet. -/
theorem requestReload_single_reloader_witness :
    sampleReqState.enabledPlugins.contains "p" = true ∧
    ((reloadersGet sampleReqState.pluginReloaders "p" = none →
      (requestReload "p" sampleReqState).state.pluginReloaders =
        ("p", sampleReqState.nextTag) :: sampleReqState.pluginReloaders
      ∧ (requestReload "p" sampleReqState).invoked =
          some sampleReqState.nextTag)
    ∧ (∀ tag, reloadersGet sampleReqState.pluginReloaders "p" = some tag →
        requestReload "p" sampleReqState = ⟨sampleReqState, some tag⟩)
    ∧ (∃ tag,
        reloadersGet (requestReload "p" sampleReqState).state.pluginReloaders
          "p" = some tag
        ∧ requestReload "p" (requestReload "p" sampleReqState).state =
            ⟨(requestReload "p" sampleReqState).state, some tag⟩)
    ∧ ((sampleReqState.pluginReloaders.map (fun e => e.1)).Nodup →
        ((requestReload "p" sampleReqState).state.pluginReloaders.map
          (fun e => e.1)).Nodup)) :=
  ⟨by decide, requestReload_single_reloader sampleReqState "p" (by decide)⟩

/-- Claim C10: an extension with no `.git` or `.hotreload` marker recorded at
the last scan is outside the opt-in set, so `requestReload` returns
immediately — no reloader is created, nothing fires, the state is unchanged. -/
theorem requestReload_not_opted_in (env : ScanEnv) (s : ReqState)
    (plugin : String) (hs : s.enabledPlugins = (getPluginNames env).2)
    (hm : ∀ dir, (plugin, dir) ∈ env.manifests →
        env.pathExists (dir ++ "/.git") = false ∧
        env.pathExists (dir ++ "/.hotreload") = false) :
    requestReload plugin s = ⟨s, none⟩ := by
  have hnotmem : plugin ∉ s.enabledPlugins := by
    rw [hs]
    intro hmem
    rcases List.mem_map.mp hmem with ⟨e, hef, hkey⟩
    have hf := List.mem_filter.mp hef
    have hpair : (plugin, e.2) ∈ env.manifests := by
      have he : (e.1, e.2) ∈ env.manifests := by simpa using hf.1
      rwa [hkey] at he
    have hmk := hm e.2 hpair
    simp [hmk.1, hmk.2] at hf
  simp [requestReload, hnotmem]

/-- Witness for `requestReload_not_opted_in`: the scanned plugin "p" has no
marker, and a request for it is a no-op. -/
theorem requestReload_not_opted_in_witness :
    ({ enabledPlugins := (getPluginNames sampleScanEnv).2,
       pluginReloaders := [], nextTag := 0 } : ReqState).enabledPlugins =
      (getPluginNames sampleScanEnv).2 ∧
    requestReload "p"
      { enabledPlugins := (getPluginNames sampleScanEnv).2,
        pluginReloaders := [], nextTag := 0 } =
      ⟨{ enabledPlugins := (getPluginNames sampleScanEnv).2,
         pluginReloaders := [], nextTag := 0 }, none⟩ :=
  ⟨rfl, requestReload_not_opted_in sampleScanEnv _ "p" rfl
    (fun dir hdir => by
      simp [sampleScanEnv] at hdir
      simp [sampleScanEnv])⟩

/-- `taskQueueRun` in closed form: the trace is the concatenation of each
action's events in submission order, and each submission's result is its own
action's settlement. -/
theorem taskQueueRun_eq (ts : List QTask) :
    taskQueueRun ts = ((ts.map taskEvents).flatten, ts.map taskResult) := by
  induction ts with
  | nil => rfl
  | cons t ts ih => simp [taskQueueRun, ih]

/-- Splitting the concatenation of a list of blocks around two of them:
every element of block `i` comes before every element of block `j`. -/
theorem join_split {α : Type} (l : List (List α)) (i j : Nat)
    (hi : i < l.length) (hj : j < l.length) (hij : i < j) :
    ∃ pre mid post, l.flatten = pre ++ l[i] ++ mid ++ l[j] ++ post := by
  have e1 : l.take i ++ l[i] :: l.drop (i + 1) = l := by
    rw [List.getElem_cons_drop, List.take_append_drop]
  have hj1 : j - (i + 1) < (l.drop (i + 1)).length := by
    simp [List.length_drop]
    omega
  have hget : (l.drop (i + 1))[j - (i + 1)] = l[j] := by
    rw [List.getElem_drop]
    congr 1
    omega
  have e2 : (l.drop (i + 1)).take (j - (i + 1)) ++
      l[j] :: (l.drop (i + 1)).drop (j - (i + 1) + 1) = l.drop (i + 1) := by
    rw [← hget, List.getElem_cons_drop, List.take_append_drop]
  refine ⟨(l.take i).flatten, ((l.drop (i + 1)).take (j - (i + 1))).flatten,
    ((l.drop (i + 1)).drop (j - (i + 1) + 1)).flatten, ?_⟩
  conv_lhs => rw [← e1]
  rw [List.flatten_append, List.flatten_cons]
  conv_lhs => rw [← e2]
  rw [List.flatten_append, List.flatten_cons]
  simp [List.append_assoc]

/-- Claim C1: the serialized task queue executes submitted actions strictly in
submission order — for any two submissions `i < j`, the whole of action `i`'s
activity (start and settlement) precedes the whole of action `j`'s in the
trace — and each submission's future settles from its own action alone, so a
rejection rejects only that future and every later submission still runs. -/
theorem taskQueue_serializes (ts : List QTask) (i j : Nat)
    (hi : i < ts.length) (hj : j < ts.length) (hij : i < j) :
    (taskQueueRun ts).2 = ts.map taskResult
    ∧ ∃ pre mid post, (taskQueueRun ts).1 =
        pre ++ taskEvents ts[i] ++ mid ++ taskEvents ts[j] ++ post := by
  constructor
  · rw [taskQueueRun_eq]
  · rw [taskQueueRun_eq]
    have hi2 : i < (ts.map taskEvents).length := by simpa using hi
    have hj2 : j < (ts.map taskEvents).length := by simpa using hj
    obtain ⟨pre, mid, post, hsplit⟩ :=
      join_split (ts.map taskEvents) i j hi2 hj2 hij
    refine ⟨pre, mid, post, ?_⟩
    simpa using hsplit

/-- Witness for `taskQueue_serializes`: three queued actions, the middle one
failing. -/
theorem taskQueue_serializes_witness :
    0 < ([⟨0, false⟩, ⟨1, true⟩, ⟨2, false⟩] : List QTask).length
    ∧ 2 < ([⟨0, false⟩, ⟨1, true⟩, ⟨2, false⟩] : List QTask).length
    ∧ 0 < 2
    ∧ ((taskQueueRun [⟨0, false⟩, ⟨1, true⟩, ⟨2, false⟩]).2 =
        ([⟨0, false⟩, ⟨1, true⟩, ⟨2, false⟩] : List QTask).map taskResult
      ∧ ∃ pre mid post, (taskQueueRun [⟨0, false⟩, ⟨1, true⟩, ⟨2, false⟩]).1 =
          pre ++ taskEvents (⟨0, false⟩ : QTask) ++ mid ++
            taskEvents (⟨2, false⟩ : QTask) ++ post) :=
  ⟨by decide, by decide, by decide,
   taskQueue_serializes [⟨0, false⟩, ⟨1, true⟩, ⟨2, false⟩] 0 2
     (by decide) (by decide) (by decide)⟩

/-- The last element of a nonempty list does not depend on the default. -/
theorem getLastD_cons_congr {α : Type} (u : α) (l : List α) (d1 d2 : α) :
    (u :: l).getLastD d1 = (u :: l).getLastD d2 := by
  rw [List.getLastD_cons, List.getLastD_cons]

/-- A run of calls all strictly inside the cooldown that started at time `a`
fires nothing; afterwards the cooldown runs from the last call. -/
theorem debRun_suppressed (c : Nat) (l : List Nat) : ∀ a : Nat,
    List.Chain (· ≤ ·) a l → (∀ t ∈ l, t < a + c) →
    debRun c ⟨a + c⟩ l = ([], ⟨l.getLastD a + c⟩) := by
  induction l with
  | nil => intro a _ _; rfl
  | cons t ts ih =>
    intro a hch hlt
    obtain ⟨hab, hch2⟩ := List.chain_cons.mp hch
    have hta : t < a + c := hlt t (by simp)
    have hstep : debStep c ⟨a + c⟩ t = (⟨t + c⟩, false) := by
      simp [debStep]
      omega
    have ihr := ih t hch2 (fun u hu => by
      have := hlt u (by simp [hu])
      omega)
    simp [debRun, hstep, ihr]
    cases ts with
    | nil => simp
    | cons u us =>
      simpa [List.getLastD_eq_getLast?] using getLastD_cons_congr u us t a

/-- `debRun` over a concatenation: run the first part, then the second from
the state the first one left. -/
theorem debRun_append (c : Nat) (l1 l2 : List Nat) : ∀ s : DebState,
    debRun c s (l1 ++ l2) =
      ((debRun c s l1).1 ++ (debRun c (debRun c s l1).2 l2).1,
       (debRun c (debRun c s l1).2 l2).2) := by
  induction l1 with
  | nil => intro s; simp [debRun]
  | cons t ts ih =>
    intro s
    simp only [List.cons_append, debRun, List.append_eq]
    rw [ih]
    split <;> simp

/-- Looking up the path just written finds the fresh stat. -/
theorem cacheGet_cacheSet_self (c : Cache) (p : String) (s : Stat) :
    cacheGet (cacheSet c p s) p = some s := by
  simp [cacheGet, cacheSet]

/-- `find?` by key is unaffected by filtering out a different key. -/
theorem find?_key_filter_ne {β : Type} (l : List (String × β)) (p q : String)
    (h : q ≠ p) :
    (l.filter (fun e => e.1 ≠ p)).find? (fun e => e.1 = q) =
      l.find? (fun e => e.1 = q) := by
  induction l with
  | nil => rfl
  | cons a t ih =>
    simp only [decide_not] at ih ⊢
    by_cases ha : a.1 = p
    · have hq2 : ¬a.1 = q := fun hh => h (hh.symm.trans ha)
      have h1 : decide (a.1 = p) = true := by simpa using ha
      rw [List.filter_cons, h1, if_neg (by decide), ih,
        List.find?_cons_of_neg _ (by simpa using hq2)]
    · have h1 : decide (a.1 = p) = false := by simpa using ha
      rw [List.filter_cons, h1, if_pos (by decide)]
      by_cases hq : a.1 = q
      · rw [List.find?_cons_of_pos _ (by simpa using hq),
          List.find?_cons_of_pos _ (by simpa using hq)]
      · rw [List.find?_cons_of_neg _ (by simpa using hq),
          List.find?_cons_of_neg _ (by simpa using hq), ih]

/-- Writing one path leaves every other path's cached value unchanged. -/
theorem cacheGet_cacheSet_ne (c : Cache) (p q : String) (s : Stat)
    (h : q ≠ p) : cacheGet (cacheSet c p s) q = cacheGet c q := by
  have hq : ¬p = q := fun hh => h hh.symm
  simp only [cacheGet, cacheSet]
  rw [List.find?_cons_of_neg _ (by simpa using hq), find?_key_filter_ne _ _ _ h]

/-- `checkFile` fires exactly on the `realChange` condition evaluated against
the cache it was handed. -/
theorem checkFile_snd (statFn : String → Option Stat) (path : String)
    (c : Cache) : (checkFile statFn path c).2 = realChange statFn c path := by
  unfold checkFile realChange
  rcases hs : statFn path with _ | st
  · rfl
  · rcases hc : cacheGet c path with _ | old <;> simp

/-- After `checkFile`, the handled path holds the fresh stat when the stat
succeeded, and its old cached value otherwise. -/
theorem checkFile_fst_get_self (statFn : String → Option Stat) (path : String)
    (c : Cache) :
    cacheGet (checkFile statFn path c).1 path =
      (statFn path).elim (cacheGet c path) some := by
  unfold checkFile
  rcases hs : statFn path with _ | st
  · rfl
  · rcases hc : cacheGet c path with _ | old <;>
      simp [cacheGet_cacheSet_self]

/-- `checkFile` does not touch any other path's cached value. -/
theorem checkFile_fst_get_ne (statFn : String → Option Stat) (path : String)
    (c : Cache) (q : String) (hq : q ≠ path) :
    cacheGet (checkFile statFn path c).1 q = cacheGet c q := by
  unfold checkFile
  rcases hs : statFn path with _ | st
  · rfl
  · rcases hc : cacheGet c path with _ | old <;>
      simp [cacheGet_cacheSet_ne _ _ _ _ hq]

/-- `realChange` only depends on the cache through the path looked up. -/
theorem realChange_congr (statFn : String → Option Stat) (c c2 : Cache)
    (p : String) (h : cacheGet c2 p = cacheGet c p) :
    realChange statFn c2 p = realChange statFn c p := by
  unfold realChange
  rw [h]

/-- The two tracked paths of one directory differ. -/
theorem tracked_paths_ne (dir : String) :
    dir ++ "/" ++ "main.js" ≠ dir ++ "/" ++ "styles.css" := by
  intro h
  have h2 := congrArg String.length h
  have l1 : ("main.js" : String).length = 7 := rfl
  have l2 : ("styles.css" : String).length = 10 := rfl
  rw [String.length_append, String.length_append, String.length_append,
    String.length_append, l1, l2] at h2
  omega

/-- Claim C3: with a manifest directory present, `checkVersion` requests a
reload for each tracked file exactly when that file had a cached stat whose
`mtime` differs from the fresh one — both comparisons made against the cache
as it was before this call (overwrite happens after comparison); whenever the
stat succeeds the cache entry becomes the fresh stat (silently when no reload
fired, including the no-prior-entry baseline case); other paths and the
known-extensions mapping are untouched. -/
theorem checkVersion_tracked (manifests : String → Option String)
    (statFn : String → Option Stat) (plugin dir : String) (s : CheckState)
    (hdir : manifests plugin = some dir) :
    ((checkVersion manifests statFn plugin s).2 =
      (if realChange statFn s.statCache (dir ++ "/" ++ "main.js") = true
        then [plugin] else []) ++
      (if realChange statFn s.statCache (dir ++ "/" ++ "styles.css") = true
        then [plugin] else []))
    ∧ (∀ file ∈ trackedFiles,
        cacheGet (checkVersion manifests statFn plugin s).1.statCache
          (dir ++ "/" ++ file) =
        ((statFn (dir ++ "/" ++ file)).elim
          (cacheGet s.statCache (dir ++ "/" ++ file)) some))
    ∧ (∀ q, q ≠ dir ++ "/" ++ "main.js" → q ≠ dir ++ "/" ++ "styles.css" →
        cacheGet (checkVersion manifests statFn plugin s).1.statCache q =
          cacheGet s.statCache q)
    ∧ (checkVersion manifests statFn plugin s).1.pluginNames =
        s.pluginNames := by
  have hne := tracked_paths_ne dir
  have hp21 : dir ++ "/" ++ "styles.css" ≠ dir ++ "/" ++ "main.js" :=
    Ne.symm hne
  have hkeep : cacheGet
      (checkFile statFn (dir ++ "/" ++ "main.js") s.statCache).1
      (dir ++ "/" ++ "styles.css") =
      cacheGet s.statCache (dir ++ "/" ++ "styles.css") :=
    checkFile_fst_get_ne _ _ _ _ hp21
  simp only [checkVersion, hdir, trackedFiles, List.foldl]
  refine ⟨?_, ?_, ?_, trivial⟩
  · rw [checkFile_snd, checkFile_snd, realChange_congr _ _ _ _ hkeep]
    cases realChange statFn s.statCache (dir ++ "/" ++ "main.js") <;>
      cases realChange statFn s.statCache (dir ++ "/" ++ "styles.css") <;>
        simp
  · intro file hfile
    simp only [List.mem_cons, List.not_mem_nil, or_false] at hfile
    rcases hfile with hfile | hfile
    · subst hfile
      rw [checkFile_fst_get_ne _ _ _ _ hne, checkFile_fst_get_self]
    · subst hfile
      rw [checkFile_fst_get_self, hkeep]
  · intro q hq1 hq2
    rw [checkFile_fst_get_ne _ _ _ _ hq2, checkFile_fst_get_ne _ _ _ _ hq1]

/-- Witness for `checkVersion_tracked`: a cached `main.js` whose `mtime`
changed from 1 to 2 and no stylesheet. -/
theorem checkVersion_tracked_witness :
    ((fun _ => some "plugins/foo" : String → Option String) "foo" =
      some "plugins/foo")
    ∧ (((checkVersion (fun _ => some "plugins/foo")
        (fun p => if p = "plugins/foo/main.js" then some ⟨2⟩ else none) "foo"
        ⟨[("plugins/foo/main.js", ⟨1⟩)], [("foo", "foo")]⟩).2 =
      (if realChange
          (fun p => if p = "plugins/foo/main.js" then some ⟨2⟩ else none)
          [("plugins/foo/main.js", ⟨1⟩)]
          ("plugins/foo" ++ "/" ++ "main.js") = true
        then ["foo"] else []) ++
      (if realChange
          (fun p => if p = "plugins/foo/main.js" then some ⟨2⟩ else none)
          [("plugins/foo/main.js", ⟨1⟩)]
          ("plugins/foo" ++ "/" ++ "styles.css") = true
        then ["foo"] else []))
    ∧ (∀ file ∈ trackedFiles,
        cacheGet (checkVersion (fun _ => some "plugins/foo")
          (fun p => if p = "plugins/foo/main.js" then some ⟨2⟩ else none) "foo"
          ⟨[("plugins/foo/main.js", ⟨1⟩)], [("foo", "foo")]⟩).1.statCache
          ("plugins/foo" ++ "/" ++ file) =
        (((fun p => if p = "plugins/foo/main.js" then some ⟨2⟩ else none)
            ("plugins/foo" ++ "/" ++ file)).elim
          (cacheGet [("plugins/foo/main.js", ⟨1⟩)]
            ("plugins/foo" ++ "/" ++ file)) some))
    ∧ (∀ q, q ≠ "plugins/foo" ++ "/" ++ "main.js" →
        q ≠ "plugins/foo" ++ "/" ++ "styles.css" →
        cacheGet (checkVersion (fun _ => some "plugins/foo")
          (fun p => if p = "plugins/foo/main.js" then some ⟨2⟩ else none) "foo"
          ⟨[("plugins/foo/main.js", ⟨1⟩)], [("foo", "foo")]⟩).1.statCache q =
          cacheGet [("plugins/foo/main.js", ⟨1⟩)] q)
    ∧ (checkVersion (fun _ => some "plugins/foo")
        (fun p => if p = "plugins/foo/main.js" then some ⟨2⟩ else none) "foo"
        ⟨[("plugins/foo/main.js", ⟨1⟩)], [("foo", "foo")]⟩).1.pluginNames =
      [("foo", "foo")]) :=
  ⟨rfl, checkVersion_tracked _ _ "foo" "plugins/foo"
    ⟨[("plugins/foo/main.js", ⟨1⟩)], [("foo", "foo")]⟩ rfl⟩

/-- Claim C6 counterexample: a plugin whose manifest entry disappeared. After
`checkVersion` it is gone from `pluginNames` and no reload was requested, but
its stale stat-cache entry is still present — the cache is not purged,
contradicting the claim. -/
theorem checkVersion_stale_cache_cex :
    (checkVersion (fun _ => none) (fun _ => none) "foo"
      ⟨[("foo/main.js", ⟨1⟩)], [("foo", "foo")]⟩).2 = []
    ∧ (checkVersion (fun _ => none) (fun _ => none) "foo"
        ⟨[("foo/main.js", ⟨1⟩)], [("foo", "foo")]⟩).1.pluginNames = []
    ∧ (checkVersion (fun _ => none) (fun _ => none) "foo"
        ⟨[("foo/main.js", ⟨1⟩)], [("foo", "foo")]⟩).1.statCache =
      [("foo/main.js", ⟨1⟩)] := by
  refine ⟨?_, ?_, ?_⟩ <;> decide

/-- Claim C6 (amended): for an extension whose directory no longer resolves
to a manifest entry, `checkVersion` requests no reload and removes the
extension's key from the known-extensions mapping, but the stat cache is left
exactly as it was — stale entries are not purged. -/
theorem checkVersion_deleted_plugin (manifests : String → Option String)
    (statFn : String → Option Stat) (plugin : String) (s : CheckState)
    (h : manifests plugin = none) :
    (checkVersion manifests statFn plugin s).2 = []
    ∧ (checkVersion manifests statFn plugin s).1.pluginNames =
        namesDelete s.pluginNames plugin
    ∧ (checkVersion manifests statFn plugin s).1.statCache = s.statCache := by
  simp [checkVersion, h]

/-- Witness for `checkVersion_deleted_plugin` at a concrete removed plugin. -/
theorem checkVersion_deleted_plugin_witness :
    ((fun _ => none : String → Option String) "gone" = none)
    ∧ ((checkVersion (fun _ => none) (fun _ => none) "gone"
        ⟨[("gone/styles.css", ⟨5⟩)], [("gone", "gone"), ("other", "other")]⟩).2 = []
    ∧ (checkVersion (fun _ => none) (fun _ => none) "gone"
        ⟨[("gone/styles.css", ⟨5⟩)],
          [("gone", "gone"), ("other", "other")]⟩).1.pluginNames =
        namesDelete [("gone", "gone"), ("other", "other")] "gone"
    ∧ (checkVersion (fun _ => none) (fun _ => none) "gone"
        ⟨[("gone/styles.css", ⟨5⟩)],
          [("gone", "gone"), ("other", "other")]⟩).1.statCache =
      [("gone/styles.css", ⟨5⟩)]) :=
  ⟨rfl, checkVersion_deleted_plugin _ _ "gone"
    ⟨[("gone/styles.css", ⟨5⟩)], [("gone", "gone"), ("other", "other")]⟩ rfl⟩

/-- Claim C2: for a burst of `N ≥ 1` calls inside the cooldown window, the
debounced trigger fires exactly once, on the first call of the burst (leading
edge); the later calls of the burst are suppressed; and once the cooldown has
elapsed the next call fires again. -/
theorem debounce_leading_edge (c t0 t2 : Nat) (l : List Nat) (s0 : DebState)
    (h0 : s0.readyAt ≤ t0) (hch : List.Chain (· ≤ ·) t0 l)
    (hwin : ∀ t ∈ l, t < t0 + c) (hlate : l.getLastD t0 + c ≤ t2) :
    (debRun c s0 (t0 :: l)).1 = [t0]
    ∧ (debRun c s0 ((t0 :: l) ++ [t2])).1 = [t0, t2] := by
  have hstep : debStep c s0 t0 = (⟨t0 + c⟩, true) := by simp [debStep, h0]
  have hsup := debRun_suppressed c l t0 hch hwin
  have hrun : debRun c s0 (t0 :: l) = ([t0], ⟨l.getLastD t0 + c⟩) := by
    simp [debRun, hstep, hsup]
  have hlate2 : l.getLast?.getD t0 + c ≤ t2 := by
    simpa [List.getLastD_eq_getLast?] using hlate
  constructor
  · rw [hrun]
  · rw [debRun_append, hrun]
    simp [debRun, debStep, List.getLastD_eq_getLast?, hlate2]

/-- Witness for `debounce_leading_edge`: three calls inside one 750 ms reload
cooldown, then one after it elapsed. -/
theorem debounce_leading_edge_witness :
    (⟨0⟩ : DebState).readyAt ≤ 1000
    ∧ List.Chain (· ≤ ·) 1000 [1100, 1200]
    ∧ (∀ t ∈ [1100, 1200], t < 1000 + reloadCooldownMs)
    ∧ [1100, 1200].getLastD 1000 + reloadCooldownMs ≤ 2000
    ∧ ((debRun reloadCooldownMs ⟨0⟩ (1000 :: [1100, 1200])).1 = [1000]
      ∧ (debRun reloadCooldownMs ⟨0⟩
          ((1000 :: [1100, 1200]) ++ [2000])).1 = [1000, 2000]) :=
  ⟨by decide, by norm_num [List.chain_cons], by decide, by decide,
   debounce_leading_edge reloadCooldownMs 1000 2000 [1100, 1200] ⟨0⟩
     (by decide) (by norm_num [List.chain_cons]) (by decide) (by decide)⟩

/-- A slash-free character list is one whole segment. -/
theorem splitSeg_no_slash (xs : List Char) (h : '/' ∉ xs) :
    splitSeg xs = [xs] := by
  induction xs with
  | nil => rfl
  | cons c rest ih =>
    have hc : ¬c = '/' := fun e => h (by simp [e])
    have hr : '/' ∉ rest := fun e => h (List.mem_cons_of_mem _ e)
    simp [splitSeg, hc, ih hr]

/-- Splitting peels off a slash-free head segment at the first slash. -/
theorem splitSeg_append_slash (xs ys : List Char) (h : '/' ∉ xs) :
    splitSeg (xs ++ '/' :: ys) = xs :: splitSeg ys := by
  induction xs with
  | nil => simp [splitSeg]
  | cons c rest ih =>
    have hc : ¬c = '/' := fun e => h (by simp [e])
    have hr : '/' ∉ rest := fun e => h (List.mem_cons_of_mem _ e)
    simp [splitSeg, hc, ih hr]

/-- Splitting always produces at least one segment. -/
theorem splitSeg_ne_nil (xs : List Char) : splitSeg xs ≠ [] := by
  cases xs with
  | nil => simp [splitSeg]
  | cons c rest =>
    by_cases hc : c = '/'
    · simp [splitSeg, hc]
    · simp only [splitSeg, hc, if_false]
      cases hsp : splitSeg rest <;> simp

/-- `splitPath` always produces at least one segment. -/
theorem splitPath_ne_nil (s : String) : splitPath s ≠ [] := by
  unfold splitPath
  intro h
  exact splitSeg_ne_nil _ (List.map_eq_nil_iff.mp h)

/-- A slash-free string splits into exactly itself. -/
theorem splitPath_no_slash (a : String) (h : '/' ∉ a.data) :
    splitPath a = [a] := by
  unfold splitPath
  rw [splitSeg_no_slash _ h]
  rfl

/-- Splitting a path peels off a slash-free leading directory. -/
theorem splitPath_slash_append (a b : String) (h : '/' ∉ a.data) :
    splitPath (a ++ "/" ++ b) = a :: splitPath b := by
  unfold splitPath
  have hd2 : (a ++ "/" ++ b).data = a.data ++ '/' :: b.data := by
    show (a.data ++ ['/']) ++ b.data = a.data ++ '/' :: b.data
    rw [List.append_assoc]
    rfl
  rw [hd2, splitSeg_append_slash _ _ h]
  rfl

/-- Splitting a path under the plugin root `cfg ++ "/plugins"`. -/
theorem splitPath_root (cfg rest : String) (hcfg : '/' ∉ cfg.data) :
    splitPath (cfg ++ "/plugins" ++ "/" ++ rest) =
      cfg :: "plugins" :: splitPath rest := by
  unfold splitPath
  have hd2 : (cfg ++ "/plugins" ++ "/" ++ rest).data =
      cfg.data ++ '/' :: ("plugins".data ++ '/' :: rest.data) := by
    show ((cfg.data ++ ('/' :: "plugins".data)) ++ ['/']) ++ rest.data =
      cfg.data ++ '/' :: ("plugins".data ++ '/' :: rest.data)
    rw [List.append_assoc, List.append_assoc]
    rfl
  rw [hd2, splitSeg_append_slash _ _ hcfg,
    splitSeg_append_slash _ _ (by decide)]
  rfl

/-- A string trivially starts with its own first part. -/
theorem strStartsWith_append (a b : String) :
    strStartsWith (a ++ b) a = true := by
  unfold strStartsWith
  show decide (a.data = (a.data ++ b.data).take a.data.length) = true
  rw [List.take_left]
  simp

/-- The router watches a path directly under the plugin root. -/
theorem onFileChange_watch_eq (cfg name : String)
    (names : List (String × String))
    (hcfg : '/' ∉ cfg.data) (hname : '/' ∉ name.data) :
    onFileChange (cfg ++ "/plugins") names (cfg ++ "/plugins" ++ "/" ++ name) =
      RouteAction.watch (cfg ++ "/plugins" ++ "/" ++ name) := by
  have hstart : strStartsWith (cfg ++ "/plugins" ++ "/" ++ name)
      ((cfg ++ "/plugins") ++ "/") = true := strStartsWith_append _ _
  have hsp : splitPath (cfg ++ "/plugins" ++ "/" ++ name) =
      [cfg, "plugins", name] := by
    rw [splitPath_root _ _ hcfg, splitPath_no_slash _ hname]
  simp [onFileChange, hstart, hsp]

/-- The router ignores a path three or more segments below the root. -/
theorem onFileChange_deep_eq (cfg d x y : String)
    (names : List (String × String))
    (hcfg : '/' ∉ cfg.data) (hd : '/' ∉ d.data) (hx : '/' ∉ x.data) :
    onFileChange (cfg ++ "/plugins") names
      (cfg ++ "/plugins" ++ "/" ++ d ++ "/" ++ x ++ "/" ++ y) =
      RouteAction.ignore := by
  have e3 : cfg ++ "/plugins" ++ "/" ++ d ++ "/" ++ x ++ "/" ++ y =
      cfg ++ "/plugins" ++ "/" ++ (d ++ "/" ++ (x ++ "/" ++ y)) := by
    simp [String.append_assoc]
  have hstart : strStartsWith
      (cfg ++ "/plugins" ++ "/" ++ d ++ "/" ++ x ++ "/" ++ y)
      ((cfg ++ "/plugins") ++ "/") = true := by
    rw [e3]
    exact strStartsWith_append _ _
  rcases hz : splitPath y with _ | ⟨z, zs⟩
  · exact absurd hz (splitPath_ne_nil y)
  · have hsp : splitPath
        (cfg ++ "/plugins" ++ "/" ++ d ++ "/" ++ x ++ "/" ++ y) =
        cfg :: "plugins" :: d :: x :: z :: zs := by
      rw [e3, splitPath_root _ _ hcfg, splitPath_slash_append _ _ hd,
        splitPath_slash_append _ _ hx, hz]
    simp only [onFileChange, hstart, hsp]
    rw [if_neg (by simp)]
    rw [if_neg ?hc1]
    case hc1 =>
      rintro ⟨h1, h2⟩
      simp [List.length_dropLast] at h1
    rw [if_pos ?hc2]
    case hc2 =>
      simp [List.length_dropLast]

/-- The router's decision on a path exactly two segments below the root, as a
function of the file name and the directory lookup. -/
theorem onFileChange_two_seg_eq (cfg d b : String)
    (names : List (String × String))
    (hcfg : '/' ∉ cfg.data) (hd : '/' ∉ d.data) (hb : '/' ∉ b.data) :
    onFileChange (cfg ++ "/plugins") names
      (cfg ++ "/plugins" ++ "/" ++ d ++ "/" ++ b) =
      (if b = "manifest.json" ∨ b = ".hotreload" ∨ b = ".git" then
        RouteAction.rescan
      else
        match lookupTruthy names (some d) with
        | none => RouteAction.rescan
        | some id =>
          if b ≠ "main.js" ∧ b ≠ "styles.css" then RouteAction.ignore
          else RouteAction.check id) := by
  have e2 : cfg ++ "/plugins" ++ "/" ++ d ++ "/" ++ b =
      cfg ++ "/plugins" ++ "/" ++ (d ++ "/" ++ b) := by
    simp [String.append_assoc]
  have hstart : strStartsWith (cfg ++ "/plugins" ++ "/" ++ d ++ "/" ++ b)
      ((cfg ++ "/plugins") ++ "/") = true := by
    rw [e2]
    exact strStartsWith_append _ _
  have hsp : splitPath (cfg ++ "/plugins" ++ "/" ++ d ++ "/" ++ b) =
      [cfg, "plugins", d, b] := by
    rw [e2, splitPath_root _ _ hcfg, splitPath_slash_append _ _ hd,
      splitPath_no_slash _ hb]
  simp only [onFileChange, hstart, hsp]
  rw [if_neg (by simp)]
  rw [if_neg (by simp)]
  rw [if_neg (by simp)]
  simp

/-- Claim C5: the router classifies a raw event by path shape — paths outside
the extensions root are ignored; a path directly under the root is watched; a
path whose depth below the root exceeds two segments is ignored; a
`manifest.json`, `.hotreload` or `.git` file, or a file whose directory does
not map to a known extension id, triggers the debounced rescan; any other
non-tracked file is ignored; a tracked file of a known extension goes
straight to the version checker for that extension's id. -/
theorem onFileChange_classification (cfg d b name x y f id : String)
    (names : List (String × String))
    (hcfg : '/' ∉ cfg.data) (hd : '/' ∉ d.data) (hb : '/' ∉ b.data)
    (hname : '/' ∉ name.data) (hx : '/' ∉ x.data) :
    (strStartsWith f ((cfg ++ "/plugins") ++ "/") = false →
      onFileChange (cfg ++ "/plugins") names f = RouteAction.ignore)
    ∧ onFileChange (cfg ++ "/plugins") names
        (cfg ++ "/plugins" ++ "/" ++ name) =
        RouteAction.watch (cfg ++ "/plugins" ++ "/" ++ name)
    ∧ onFileChange (cfg ++ "/plugins") names
        (cfg ++ "/plugins" ++ "/" ++ d ++ "/" ++ x ++ "/" ++ y) =
        RouteAction.ignore
    ∧ ((b = "manifest.json" ∨ b = ".hotreload" ∨ b = ".git") →
        onFileChange (cfg ++ "/plugins") names
          (cfg ++ "/plugins" ++ "/" ++ d ++ "/" ++ b) = RouteAction.rescan)
    ∧ (lookupTruthy names (some d) = none →
        onFileChange (cfg ++ "/plugins") names
          (cfg ++ "/plugins" ++ "/" ++ d ++ "/" ++ b) = RouteAction.rescan)
    ∧ (lookupTruthy names (some d) = some id →
        b ∉ ["manifest.json", ".hotreload", ".git", "main.js", "styles.css"] →
        onFileChange (cfg ++ "/plugins") names
          (cfg ++ "/plugins" ++ "/" ++ d ++ "/" ++ b) = RouteAction.ignore)
    ∧ (lookupTruthy names (some d) = some id →
        (b = "main.js" ∨ b = "styles.css") →
        onFileChange (cfg ++ "/plugins") names
          (cfg ++ "/plugins" ++ "/" ++ d ++ "/" ++ b) =
          RouteAction.check id) := by
  refine ⟨fun hout => by simp [onFileChange, hout],
    onFileChange_watch_eq cfg name names hcfg hname,
    onFileChange_deep_eq cfg d x y names hcfg hd hx,
    fun hmark => ?_, fun hlook => ?_, fun hlook hb5 => ?_,
    fun hlook hb2 => ?_⟩
  · rw [onFileChange_two_seg_eq cfg d b names hcfg hd hb, if_pos hmark]
  · rw [onFileChange_two_seg_eq cfg d b names hcfg hd hb]
    split
    · rfl
    · rw [hlook]
  · simp only [List.mem_cons, List.not_mem_nil, or_false, not_or] at hb5
    obtain ⟨h1, h2, h3, h4, h5⟩ := hb5
    rw [onFileChange_two_seg_eq cfg d b names hcfg hd hb,
      if_neg (by simp [h1, h2, h3]), hlook]
    simp [h4, h5]
  · rw [onFileChange_two_seg_eq cfg d b names hcfg hd hb,
      if_neg (by rcases hb2 with h | h <;> subst h <;> decide), hlook]
    rcases hb2 with h | h <;> subst h <;> simp

/-- Witness for `onFileChange_classification`: root `.obsidian/plugins`, one
known extension directory `foo` mapping to id `foo-id`, a `main.js` edit. -/
theorem onFileChange_classification_witness :
    ('/' ∉ (".obsidian" : String).data ∧ '/' ∉ ("foo" : String).data
      ∧ '/' ∉ ("main.js" : String).data ∧ '/' ∉ ("bar" : String).data
      ∧ '/' ∉ ("sub" : String).data)
    ∧ ((strStartsWith "outside.txt" ((".obsidian" ++ "/plugins") ++ "/") =
        false →
      onFileChange (".obsidian" ++ "/plugins") [("foo", "foo-id")]
        "outside.txt" = RouteAction.ignore)
    ∧ onFileChange (".obsidian" ++ "/plugins") [("foo", "foo-id")]
        (".obsidian" ++ "/plugins" ++ "/" ++ "bar") =
        RouteAction.watch (".obsidian" ++ "/plugins" ++ "/" ++ "bar")
    ∧ onFileChange (".obsidian" ++ "/plugins") [("foo", "foo-id")]
        (".obsidian" ++ "/plugins" ++ "/" ++ "foo" ++ "/" ++ "sub" ++ "/" ++
          "deep.js") = RouteAction.ignore
    ∧ (("main.js" = "manifest.json" ∨ "main.js" = ".hotreload" ∨
        "main.js" = ".git") →
        onFileChange (".obsidian" ++ "/plugins") [("foo", "foo-id")]
          (".obsidian" ++ "/plugins" ++ "/" ++ "foo" ++ "/" ++ "main.js") =
          RouteAction.rescan)
    ∧ (lookupTruthy [("foo", "foo-id")] (some "foo") = none →
        onFileChange (".obsidian" ++ "/plugins") [("foo", "foo-id")]
          (".obsidian" ++ "/plugins" ++ "/" ++ "foo" ++ "/" ++ "main.js") =
          RouteAction.rescan)
    ∧ (lookupTruthy [("foo", "foo-id")] (some "foo") = some "foo-id" →
        "main.js" ∉
          ["manifest.json", ".hotreload", ".git", "main.js", "styles.css"] →
        onFileChange (".obsidian" ++ "/plugins") [("foo", "foo-id")]
          (".obsidian" ++ "/plugins" ++ "/" ++ "foo" ++ "/" ++ "main.js") =
          RouteAction.ignore)
    ∧ (lookupTruthy [("foo", "foo-id")] (some "foo") = some "foo-id" →
        ("main.js" = "main.js" ∨ "main.js" = "styles.css") →
        onFileChange (".obsidian" ++ "/plugins") [("foo", "foo-id")]
          (".obsidian" ++ "/plugins" ++ "/" ++ "foo" ++ "/" ++ "main.js") =
          RouteAction.check "foo-id")) :=
  ⟨⟨by decide, by decide, by decide, by decide, by decide⟩,
   onFileChange_classification ".obsidian" "foo" "main.js" "bar" "sub"
     "deep.js" "outside.txt" "foo-id" [("foo", "foo-id")]
     (by decide) (by decide) (by decide) (by decide) (by decide)⟩

end HotReload
